import Mathlib

/-!
A verification development for the datamatrix repository: a shallow
embedding of the entity store (json_asset_manager.go), the ingestion row
processing (LoadCSVFile), and the query engine (sql_parser.go together with
executeSQLQueryScan), with theorems settling the frozen claims about the
natural-language specification.

Modelling conventions:
* Go map[string]string values are modelled as association lists
  (List (String × String)); Go map assignment replaces the binding.
* The filesystem is modelled as fields of a Store structure: the per-id
  document files (docs), the per-id .metadata.json files (metas), the
  in-memory column catalog (columns) and the ID prefix filter.
  GetJSONFilePath is injective in the id (the file name embeds the full id),
  so the store is keyed directly by id.
* time.Now() is supplied as an explicit (today : String) parameter.
* Go string comparison (byte-wise lexicographic over UTF-8) coincides with
  Lean String order (code-point lexicographic), since UTF-8 byte order
  equals code-point order.
* ShouldIncludeID compiles each filter pattern as a regular expression; the
  regexp match is passed in as an opaque (patternMatches) argument because
  every claim exercises the empty-filter case, where the code returns true
  without consulting any pattern.
-/

set_option autoImplicit false

namespace Datamatrix

/-- A JSON document: Go map[string]string as an association list. -/
abbrev Doc := List (String × String)

/-- Look up the first binding of a key (Go map read). -/
def lookupA {α : Type} : List (String × α) → String → Option α
  | [], _ => none
  | (k, v) :: rest, key => if k = key then some v else lookupA rest key

/-- Replace the binding of a key, or append it (Go map assignment). -/
def insertA {α : Type} : List (String × α) → String → α → List (String × α)
  | [], key, v => [(key, v)]
  | (k, w) :: rest, key, v =>
      if k = key then (k, v) :: rest else (k, w) :: insertA rest key v

/-- ColumnIndex from json_asset_manager.go: effective-date provenance of one
column value of one asset. -/
structure ColumnIndex where
  id : String
  columnName : String
  effectiveDate : String
  sourceFile : String
deriving Repr, DecidableEq

/-- AssetMetadata from json_asset_manager.go (UpdatedAt, a wall-clock
timestamp no claim mentions, is not modelled). -/
structure AssetMetadata where
  id : String
  columns : List ColumnIndex
deriving Repr, DecidableEq

/-- The persistent and in-memory state of JSONAssetManager: per-id document
files, per-id metadata files, the column catalog and the ID prefix filter.
(The Data map kept only for interface compatibility is not modelled.) -/
structure Store where
  docs : List (String × Doc)
  metas : List (String × AssetMetadata)
  columns : List String
  idPrefixFilter : List String
deriving Repr, DecidableEq

def emptyStore : Store := ⟨[], [], [], []⟩

/-- Go string comparison (lexicographic over UTF-8 bytes) on character
lists: byte order and code-point order agree under UTF-8. -/
def goStrLtL : List Char → List Char → Bool
  | [], [] => false
  | [], _ :: _ => true
  | _ :: _, [] => false
  | a :: as, b :: bs => if a < b then true else if b < a then false else goStrLtL as bs

/-- Go string comparison a > b. -/
def strGt (a b : String) : Bool := goStrLtL b.data a.data

/-- ShouldIncludeID: with no filter set, include all IDs; otherwise the ID
must match one pattern (regexp match, or prefix fallback, supplied as
patternMatches). -/
def ShouldIncludeID (patternMatches : String → String → Bool)
    (filter : List String) (id : String) : Bool :=
  if filter.isEmpty then true else filter.any (fun p => patternMatches p id)

/-- getColumnEffectiveDate inner loop: first matching column's date, else
the empty string. -/
def findColDate : List ColumnIndex → String → String
  | [], _ => ""
  | ci :: rest, c => if ci.columnName = c then ci.effectiveDate else findColDate rest c

/-- getColumnEffectiveDate: the recorded effective date for (id, column), or
"" when the metadata or the column record is absent.  (loadAssetMetadata
materialises an empty metadata file when none exists; value-wise that equals
reading the empty default.) -/
def getColumnEffectiveDate (s : Store) (id c : String) : String :=
  findColDate ((lookupA s.metas id).getD { id := id, columns := [] }).columns c

/-- The columnExists scan of updateColumnEffectiveDate. -/
def colExists : List ColumnIndex → String → Bool
  | [], _ => false
  | ci :: rest, c => if ci.columnName = c then true else colExists rest c

/-- The update-and-break loop of updateColumnEffectiveDate: the first record
for the column gets the new date and source iff the new date is strictly
greater (Go string >). -/
def updColsFirst (c eff src : String) : List ColumnIndex → List ColumnIndex
  | [] => []
  | ci :: rest =>
      if ci.columnName = c then
        (if strGt eff ci.effectiveDate then
          { ci with effectiveDate := eff, sourceFile := src } else ci) :: rest
      else ci :: updColsFirst c eff src rest

/-- updateColumnEffectiveDate: load (or default) the asset metadata, update
the column record in place or append a new one, save. -/
def updateColumnEffectiveDate (s : Store) (id c eff src : String) : Store :=
  let m := (lookupA s.metas id).getD { id := id, columns := [] }
  let cols :=
    if colExists m.columns c then updColsFirst c eff src m.columns
    else m.columns ++ [{ id := id, columnName := c, effectiveDate := eff, sourceFile := src }]
  { s with metas := insertA s.metas id { m with columns := cols } }

/-- LoadOrCreateAsset: read the document file (absent file yields the empty
map), then always set the ID_BB_GLOBAL field. -/
def LoadOrCreateAsset (s : Store) (id : String) : Doc :=
  insertA ((lookupA s.docs id).getD []) "ID_BB_GLOBAL" id

/-- SaveAsset: persist the document, replacing prior content. -/
def SaveAsset (s : Store) (id : String) (asset : Doc) : Store :=
  { s with docs := insertA s.docs id asset }

/-- GetAsset: read the document file; absent file is NotFound (none). -/
def GetAsset (s : Store) (id : String) : Option Doc :=
  lookupA s.docs id

/-- The stored value of one column of one entity, as read by GetAsset. -/
def getColumn (s : Store) (id c : String) : Option String :=
  (GetAsset s id).bind (fun a => lookupA a c)

/-- addColumnIfNotExists: append the column name to the catalog unless
already present. -/
def addColumnIfNotExists (cols : List String) (c : String) : List String :=
  if c ∈ cols then cols else cols ++ [c]

/-- Sentinel test of UpdateAssetFromCSVWithDate: empty, case-insensitive
"null", or "N.A." values are skipped. -/
def isSentinel (v : String) : Bool :=
  v == "" || ((⟨v.data.map Char.toLower⟩ : String) == "null") || v == "N.A."

/-- The mutable locals of the UpdateAssetFromCSVWithDate loop. -/
structure MergeAcc where
  s : Store
  asset : Doc
  updated : Bool
deriving Repr, DecidableEq

/-- One iteration of the UpdateAssetFromCSVWithDate loop over a
(column, value) pair: skip sentinels; otherwise accept the value iff no
effective date is recorded or the incoming date is strictly newer, updating
the local asset, the persisted column metadata and the column catalog. -/
def mergeStep (id eff src : String) (st : MergeAcc) (p : String × String) : MergeAcc :=
  if isSentinel p.2 then st
  else
    let cur := getColumnEffectiveDate st.s id p.1
    if cur == "" || strGt eff cur then
      let s1 := updateColumnEffectiveDate st.s id p.1 eff src
      let s2 := { s1 with columns := addColumnIfNotExists s1.columns p.1 }
      { s := s2, asset := insertA st.asset p.1 p.2, updated := true }
    else st

/-- The load-and-decide phase of UpdateAssetFromCSVWithDate (everything
before the final conditional SaveAsset): load the asset, then fold the merge
loop over the header/record pairs (Go iterates record indices i with
i < len(header), i.e. exactly zip header record). -/
def mergeLoadPhase (s : Store) (id : String) (header record : List String)
    (eff src : String) : MergeAcc :=
  (header.zip record).foldl (mergeStep id eff src)
    { s := s, asset := LoadOrCreateAsset s id, updated := false }

/-- UpdateAssetFromCSVWithDate: filter check, load-and-decide loop, then
save the document only if some value was updated.  LoadOrCreateAsset and
SaveAsset each take the manager lock separately in the source; the phase
split here mirrors exactly that lock boundary. -/
def UpdateAssetFromCSVWithDate (patternMatches : String → String → Bool)
    (s : Store) (id : String) (header record : List String)
    (eff src : String) : Bool × Store :=
  if ShouldIncludeID patternMatches s.idPrefixFilter id = false then (false, s)
  else
    let acc := mergeLoadPhase s id header record eff src
    if acc.updated then (true, SaveAsset acc.s id acc.asset) else (false, acc.s)

/-! ## Effective date extraction (getEffectiveDateFromFilename) -/

/-- Go regexp \d: an ASCII digit. -/
def isDigitGo (c : Char) : Bool := '0' ≤ c && c ≤ '9'

/-- All windows of 8 consecutive ASCII digits of a character list, leftmost
first (every start position whose next 8 characters are all digits). -/
def digitRuns8 : List Char → List (List Char)
  | [] => []
  | c :: rest =>
      (if ((c :: rest).take 8).length = 8 && ((c :: rest).take 8).all isDigitGo
       then [(c :: rest).take 8] else []) ++ digitRuns8 rest

/-- All 8-consecutive-digit tokens of a string, leftmost first. -/
def tokens8 (s : String) : List String := (digitRuns8 s.data).map (fun l => ⟨l⟩)

/-- regexp.MustCompile of eight digits, FindString: the leftmost match, or
none (Go returns "" for no match). -/
def findFirst8Digits (s : String) : Option String := (tokens8 s).head?

/-- Numeric value of a digit list. -/
def natOfDigits (l : List Char) : Nat := l.foldl (fun a c => 10 * a + (c.toNat - 48)) 0

def isLeapYear (y : Nat) : Bool := (y % 4 = 0 && y % 100 ≠ 0) || y % 400 = 0

def daysInMonth (y m : Nat) : Nat :=
  if m = 2 then (if isLeapYear y then 29 else 28)
  else if m = 4 || m = 6 || m = 9 || m = 11 then 30
  else if 1 ≤ m && m ≤ 12 then 31
  else 0

/-- time.Parse("20060102", s) succeeds: 8 ASCII digits forming a calendar
date (month 1..12, day within the month, proleptic Gregorian leap rule). -/
def validDate (s : String) : Bool :=
  s.data.length = 8 && s.data.all isDigitGo &&
  (let y := natOfDigits (s.data.take 4)
   let m := natOfDigits ((s.data.drop 4).take 2)
   let d := natOfDigits ((s.data.drop 6).take 2)
   1 ≤ m && m ≤ 12 && 1 ≤ d && d ≤ daysInMonth y m)

/-- getEffectiveDateFromFilename: the leftmost 8-digit token when it parses
as a real calendar date, otherwise today (time.Now().Format("20060102") is
supplied as the parameter today). -/
def getEffectiveDateFromFilename (today filename : String) : String :=
  match findFirst8Digits filename with
  | some m => if validDate m then m else today
  | none => today

/-! ## Ingestion row processing (LoadCSVFile) -/

/-- The header scan of LoadCSVFile locating the ID_BB_GLOBAL column. -/
def findIdBBGlobalIndex : List String → Option Nat
  | [] => none
  | c :: rest =>
      if c = "ID_BB_GLOBAL" then some 0
      else (findIdBBGlobalIndex rest).map (· + 1)

/-- The per-row body of the LoadCSVFile loop: skip the row when the
identifier index is out of range or the identifier is empty, otherwise merge
the row. -/
def processCSVRow (patternMatches : String → String → Bool) (s : Store)
    (header : List String) (idIndex : Nat) (record : List String)
    (eff src : String) : Store :=
  if idIndex < record.length then
    let id := record.getD idIndex ""
    if id = "" then s
    else (UpdateAssetFromCSVWithDate patternMatches s id header record eff src).2
  else s

/-- The pure core of LoadCSVFile, given the decoded header and data rows
(file IO, gzip decoding and CSV decoding are collaborator concerns): derive
the effective date from the file name, skip the file when ID_BB_GLOBAL is
missing from the header, otherwise add every header column to the catalog
and process each row. -/
def LoadCSVFile (patternMatches : String → String → Bool) (today : String)
    (s : Store) (filePath : String) (header : List String)
    (records : List (List String)) : Store :=
  let eff := getEffectiveDateFromFilename today filePath
  match findIdBBGlobalIndex header with
  | none => s
  | some idIndex =>
      let s1 := { s with columns := header.foldl addColumnIfNotExists s.columns }
      records.foldl
        (fun st r => processCSVRow patternMatches st header idIndex r eff filePath) s1

/-- The column-catalog rebuild of scanExistingAssets: gather every column
name of every persisted metadata file into a deduplicated set (the Go colMap
keys) and append it to the (empty, at startup) catalog. -/
def scanExistingAssetsColumns (metas : List (String × AssetMetadata)) : List String :=
  (metas.flatMap (fun m => m.2.columns.map (fun ci => ci.columnName))).dedup

/-! ## Query engine (sql_parser.go and executeSQLQueryScan) -/

/-- The parsed query struct of sql_parser.go. -/
structure SQLQuery where
  SelectColumns : List String
  FromTable : String
  WhereColumn : String := ""
  WhereOperator : String := ""
  WhereValue : String := ""
  HasWhere : Bool
deriving Repr, DecidableEq

/-- Whitespace as matched by Go regexp \s and trimmed by strings.TrimSpace
on ASCII input. -/
def isSpaceGo (c : Char) : Bool :=
  c = ' ' || c = Char.ofNat 9 || c = Char.ofNat 10 || c = Char.ofNat 11 ||
  c = Char.ofNat 12 || c = Char.ofNat 13

/-- strings.TrimSpace. -/
def trimL (l : List Char) : List Char :=
  ((l.dropWhile isSpaceGo).reverse.dropWhile isSpaceGo).reverse

/-- regexp \s+ replaced by a single space: every maximal whitespace run
collapses to one space. -/
def collapseWs : List Char → List Char
  | [] => []
  | [c] => [if isSpaceGo c then ' ' else c]
  | c :: d :: rest =>
      if isSpaceGo c then
        if isSpaceGo d then collapseWs (d :: rest) else ' ' :: collapseWs (d :: rest)
      else c :: collapseWs (d :: rest)

/-- First index at which pat occurs as a contiguous sublist. -/
def findSubIdx (pat : List Char) : List Char → Option Nat
  | [] => if pat = [] then some 0 else none
  | c :: rest =>
      if pat.isPrefixOf (c :: rest) then some 0
      else (findSubIdx pat rest).map (· + 1)

/-- strings.Split on a separator, fuelled by the subject length (each round
consumes at least one character; the separators used here are nonempty). -/
def splitOnAux (pat : List Char) : Nat → List Char → List (List Char)
  | 0, s => [s]
  | fuel + 1, s =>
      match findSubIdx pat s with
      | none => [s]
      | some i => s.take i :: splitOnAux pat fuel (s.drop (i + pat.length))

def splitOnL (pat s : List Char) : List (List Char) :=
  if pat = [] then [s] else splitOnAux pat s.length s

/-- strings.TrimPrefix. -/
def trimPrefixL (pat s : List Char) : List Char :=
  if pat.isPrefixOf s then s.drop pat.length else s

/-- The operator alternation of sql_parser.go evaluated at one position.
Go regexp (non-POSIX) uses leftmost-first alternation, so at a given
position the first alternative of =|>|<|>=|<=|!= that matches wins: a lone
"=", ">" or "<" is taken before ">=" or "<=" could be tried, and "!=" only
matches when "!" is followed by "=". -/
def opAt : List Char → Option (String × Nat)
  | '=' :: _ => some ("=", 1)
  | '>' :: _ => some (">", 1)
  | '<' :: _ => some ("<", 1)
  | '!' :: '=' :: _ => some ("!=", 2)
  | _ => none

/-- FindStringSubmatch and Split(.., 2) of the operator regexp: the leftmost
position where an alternative matches, the operator captured there, and the
text on either side (the surrounding \s* of the match is absorbed by the
strings.TrimSpace both sides receive afterwards). -/
def findOpSplit (acc : List Char) : List Char → Option (String × List Char × List Char)
  | [] => none
  | c :: rest =>
      match opAt (c :: rest) with
      | some (op, n) => some (op, acc.reverse, (c :: rest).drop n)
      | none => findOpSplit (c :: acc) rest

/-- ParseSQL from sql_parser.go.  Note the source splits the result of
strings.ToUpper over the whole query, so every returned field — select
columns, table, predicate column and literal — is upper-cased text. -/
def ParseSQL (query : String) : Except String SQLQuery :=
  let q := collapseWs (trimL query.data)
  let up := q.map Char.toUpper
  if ("SELECT ".data.isPrefixOf up) = false then
    .error "query must start with SELECT"
  else
    let fromParts := splitOnL " FROM ".data up
    if fromParts.length ≠ 2 then .error "query must contain FROM clause"
    else
      let selectPart := trimPrefixL "SELECT ".data (fromParts.getD 0 [])
      let selectColumns := (splitOnL [','] selectPart).map (fun c => (⟨trimL c⟩ : String))
      let tableAndWhere := fromParts.getD 1 []
      let whereParts := splitOnL " WHERE ".data tableAndWhere
      if whereParts.length > 2 then .error "query contains multiple WHERE clauses"
      else
        let fromTable : String := ⟨trimL (whereParts.getD 0 [])⟩
        if whereParts.length = 2 then
          match findOpSplit [] (whereParts.getD 1 []) with
          | none => .error "WHERE clause must contain a valid operator (=, >, <, >=, <=, !=)"
          | some (op, left, right) =>
              let v := trimL right
              let value : String :=
                if v.head? = some (Char.ofNat 39) ∧ v.getLast? = some (Char.ofNat 39)
                then ⟨(v.drop 1).dropLast⟩ else ⟨v⟩
              .ok { SelectColumns := selectColumns, FromTable := fromTable,
                    WhereColumn := ⟨trimL left⟩, WhereOperator := op,
                    WhereValue := value, HasWhere := true }
        else
          .ok { SelectColumns := selectColumns, FromTable := fromTable, HasWhere := false }

/-- The WHERE evaluation of executeSQLQueryScan: a document lacking the
predicate column (by exact key equality) is excluded; otherwise the stored
value is compared with the literal by Go string comparison. -/
def matchesWhere (q : SQLQuery) (asset : Doc) : Bool :=
  if q.HasWhere then
    match lookupA asset q.WhereColumn with
    | none => false
    | some wv =>
        if q.WhereOperator = "=" then wv == q.WhereValue
        else if q.WhereOperator = ">" then strGt wv q.WhereValue
        else if q.WhereOperator = "<" then strGt q.WhereValue wv
        else if q.WhereOperator = ">=" then !(strGt q.WhereValue wv)
        else if q.WhereOperator = "<=" then !(strGt wv q.WhereValue)
        else if q.WhereOperator = "!=" then !(wv == q.WhereValue)
        else false
  else true

/-- The projection of executeSQLQueryScan: the whole document when the first
select column is "*", otherwise only the requested columns that exist (by
exact key equality). -/
def projectDoc (q : SQLQuery) (asset : Doc) : Doc :=
  if q.SelectColumns.head? = some "*" then asset
  else
    q.SelectColumns.foldl
      (fun acc col =>
        match lookupA asset col with
        | some v => insertA acc col v
        | none => acc) []

/-- executeSQLQueryScan: scan every persisted document in order, filter by
the predicate, project.  (The walk also visits .metadata.json files, whose
unmarshal into map[string]string fails so they are logged and skipped.) -/
def executeSQLQueryScan (s : Store) (q : SQLQuery) : List Doc :=
  (s.docs.map (fun p => p.2)).filterMap
    (fun a => if matchesWhere q a then some (projectDoc q a) else none)

/-- ExecuteSQLQuery: parse, reject any table other than BB_ASSETS as a
semantic error, then scan. -/
def ExecuteSQLQuery (s : Store) (sqlQuery : String) : Except String (List Doc) :=
  match ParseSQL sqlQuery with
  | .error e => .error ("error parsing SQL query: " ++ e)
  | .ok q =>
      if q.FromTable ≠ "BB_ASSETS" then .error ("unknown table: " ++ q.FromTable)
      else .ok (executeSQLQueryScan s q)

/-- Case-insensitive key lookup, the resolution rule the specification
prescribes for the query engine (spec §4.3); used to state how the code
diverges from it. -/
def lookupCaseInsensitive (asset : Doc) (c : String) : Option String :=
  match asset.find? (fun kv => kv.1.data.map Char.toLower == c.data.map Char.toLower) with
  | some kv => some kv.2
  | none => none

deriving instance DecidableEq for Except

/-- C2.  The two threads of the lost-update interleaving: each runs the
load-and-decide phase of UpdateAssetFromCSVWithDate (LoadOrCreateAsset holds
the manager lock only while loading), thread 2 loading after thread 1 has
decided but before thread 1 has saved; then both SaveAsset in turn. -/
def mergeThread1 : MergeAcc := mergeLoadPhase emptyStore "X" ["A"] ["1"] "20240101" "f1.csv"

def mergeThread2 : MergeAcc := mergeLoadPhase mergeThread1.s "X" ["B"] ["2"] "20240101" "f2.csv"

def lostUpdateFinal : Store :=
  SaveAsset (SaveAsset mergeThread2.s "X" mergeThread1.asset) "X" mergeThread2.asset

/-- The document of spec Scenario A, and a store holding it. -/
def aaplDoc : Doc := [("ID_BB_GLOBAL", "AAPL"), ("Company", "Apple Inc."), ("Revenue", "365.8")]

def scenarioCStore : Store :=
  { docs := [("AAPL", aaplDoc)], metas := [],
    columns := ["ID_BB_GLOBAL", "Company", "Revenue"], idPrefixFilter := [] }

/-- A store already holding a document and a newer provenance record for
column C of entity X. -/
def frameStore : Store :=
  { docs := [("X", [("C", "old")])],
    metas := [("X", { id := "X", columns :=
      [{ id := "X", columnName := "C", effectiveDate := "20240102", sourceFile := "f0.csv" }] })],
    columns := ["C"], idPrefixFilter := [] }

/-! ## Library lemmas about the embedded operations -/

theorem strGt_empty (eff : String) (h : eff ≠ "") : strGt eff "" = true := by
  cases eff with
  | mk d =>
      cases d with
      | nil => exact absurd rfl h
      | cons c cs => rfl

theorem lookupA_insertA_self {α : Type} (l : List (String × α)) (k : String) (v : α) :
    lookupA (insertA l k v) k = some v := by
  induction l with
  | nil => simp [insertA, lookupA]
  | cons p rest ih =>
      by_cases h : p.1 = k
      · simp [insertA, lookupA, h]
      · simp only [insertA, lookupA, if_neg h]
        simp [lookupA, if_neg h, ih]

theorem lookupA_insertA_ne {α : Type} (l : List (String × α)) (k k2 : String) (v : α)
    (h : k2 ≠ k) : lookupA (insertA l k v) k2 = lookupA l k2 := by
  induction l with
  | nil => simp [insertA, lookupA, Ne.symm h]
  | cons p rest ih =>
      by_cases h1 : p.1 = k
      · simp only [insertA, if_pos h1]
        by_cases h2 : p.1 = k2
        · exact absurd (h1 ▸ h2 ▸ rfl : k2 = k) h
        · simp [lookupA, if_neg h2]
      · simp only [insertA, if_neg h1]
        by_cases h2 : p.1 = k2
        · simp [lookupA, h2]
        · simp [lookupA, if_neg h2, ih]

theorem findColDate_eq_empty_of_not_exists (cols : List ColumnIndex) (c : String)
    (h : colExists cols c = false) : findColDate cols c = "" := by
  induction cols with
  | nil => rfl
  | cons ci rest ih =>
      by_cases h1 : ci.columnName = c
      · simp [colExists, h1] at h
      · simp only [colExists, if_neg h1] at h
        simp [findColDate, if_neg h1, ih h]

theorem colExists_of_findColDate_ne (cols : List ColumnIndex) (c : String)
    (h : findColDate cols c ≠ "") : colExists cols c = true := by
  by_cases he : colExists cols c = true
  · exact he
  · exact absurd (findColDate_eq_empty_of_not_exists cols c (by simpa using he)) h

theorem findColDate_append (l r : List ColumnIndex) (c : String) :
    findColDate (l ++ r) c =
      if colExists l c = true then findColDate l c else findColDate r c := by
  induction l with
  | nil => simp [findColDate, colExists]
  | cons ci rest ih =>
      by_cases h1 : ci.columnName = c
      · simp [findColDate, colExists, h1]
      · simp [findColDate, colExists, if_neg h1, ih]

theorem findColDate_updColsFirst_self (cols : List ColumnIndex) (c eff src : String)
    (h : colExists cols c = true) :
    findColDate (updColsFirst c eff src cols) c =
      if strGt eff (findColDate cols c) = true then eff else findColDate cols c := by
  induction cols with
  | nil => simp [colExists] at h
  | cons ci rest ih =>
      by_cases h1 : ci.columnName = c
      · by_cases h2 : strGt eff ci.effectiveDate = true
        · simp [updColsFirst, findColDate, h1, h2]
        · simp only [Bool.not_eq_true] at h2
          simp [updColsFirst, findColDate, h1, h2]
      · simp only [colExists, if_neg h1] at h
        simp [updColsFirst, findColDate, if_neg h1, ih h]

theorem findColDate_updColsFirst_ne (cols : List ColumnIndex) (c c2 eff src : String)
    (h : c2 ≠ c) :
    findColDate (updColsFirst c eff src cols) c2 = findColDate cols c2 := by
  induction cols with
  | nil => rfl
  | cons ci rest ih =>
      by_cases h1 : ci.columnName = c
      · have h3 : ¬ ci.columnName = c2 := by rw [h1]; exact Ne.symm h
        by_cases h2 : strGt eff ci.effectiveDate = true
        · simp only [updColsFirst, if_pos h1, if_pos h2, findColDate]
          have h4 : ({ ci with effectiveDate := eff, sourceFile := src } : ColumnIndex).columnName = ci.columnName := rfl
          rw [h4]
          simp [h3]
        · simp only [Bool.not_eq_true] at h2
          simp [updColsFirst, h1, h2, findColDate]
      · simp [updColsFirst, if_neg h1, findColDate, ih]

theorem getEff_upd_fresh (s : Store) (id c eff src : String)
    (h : getColumnEffectiveDate s id c = "") (he : eff ≠ "") :
    getColumnEffectiveDate (updateColumnEffectiveDate s id c eff src) id c = eff := by
  unfold getColumnEffectiveDate at h ⊢
  unfold updateColumnEffectiveDate
  cases hm : lookupA s.metas id with
  | none =>
      simp only [hm, Option.getD_none, lookupA_insertA_self]
      simp [colExists, findColDate, findColDate_append]
  | some m =>
      simp only [hm, Option.getD_some] at h
      simp only [hm, Option.getD_some, lookupA_insertA_self]
      by_cases hex : colExists m.columns c = true
      · simp only [hex, if_true]
        rw [findColDate_updColsFirst_self m.columns c eff src hex, h, strGt_empty eff he]
        simp
      · simp only [Bool.not_eq_true] at hex
        simp only [hex, Bool.false_eq_true, if_false]
        rw [findColDate_append]
        simp [hex, findColDate]

theorem getEff_upd_exists (s : Store) (id c eff src : String)
    (h : getColumnEffectiveDate s id c ≠ "") :
    getColumnEffectiveDate (updateColumnEffectiveDate s id c eff src) id c =
      if strGt eff (getColumnEffectiveDate s id c) = true then eff
      else getColumnEffectiveDate s id c := by
  unfold getColumnEffectiveDate at h ⊢
  unfold updateColumnEffectiveDate
  cases hm : lookupA s.metas id with
  | none => simp only [hm, Option.getD_none] at h; exact absurd rfl h
  | some m =>
      simp only [hm, Option.getD_some] at h
      have hex : colExists m.columns c = true := colExists_of_findColDate_ne m.columns c h
      simp only [hm, Option.getD_some, lookupA_insertA_self, hex, if_true]
      exact findColDate_updColsFirst_self m.columns c eff src hex

theorem getEff_upd_ne (s : Store) (id c c2 eff src : String) (h : c2 ≠ c) :
    getColumnEffectiveDate (updateColumnEffectiveDate s id c eff src) id c2 =
      getColumnEffectiveDate s id c2 := by
  unfold getColumnEffectiveDate updateColumnEffectiveDate
  cases hm : lookupA s.metas id with
  | none =>
      simp only [hm, Option.getD_none, lookupA_insertA_self]
      simp [colExists, findColDate, findColDate_append, Ne.symm h]
  | some m =>
      simp only [hm, Option.getD_some, lookupA_insertA_self]
      by_cases hex : colExists m.columns c = true
      · simp only [hex, if_true]
        exact findColDate_updColsFirst_ne m.columns c c2 eff src h
      · simp only [Bool.not_eq_true] at hex
        simp only [hex, Bool.false_eq_true, if_false]
        rw [findColDate_append]
        by_cases h2 : colExists m.columns c2 = true
        · simp [h2]
        · simp only [Bool.not_eq_true] at h2
          simp only [h2, Bool.false_eq_true, if_false, findColDate, Ne.symm h]
          exact (findColDate_eq_empty_of_not_exists m.columns c2 h2).symm

theorem mergeStep_frame (id eff src : String) (st : MergeAcc) (p : String × String) :
    (mergeStep id eff src st p).s.docs = st.s.docs ∧
    (mergeStep id eff src st p).s.idPrefixFilter = st.s.idPrefixFilter := by
  unfold mergeStep
  by_cases h1 : isSentinel p.2 = true
  · simp [h1]
  · simp only [Bool.not_eq_true] at h1
    simp only [h1, Bool.false_eq_true, if_false]
    by_cases h2 : (getColumnEffectiveDate st.s id p.1 == "" || strGt eff (getColumnEffectiveDate st.s id p.1)) = true
    · simp only [h2, if_true]
      exact ⟨rfl, rfl⟩
    · simp only [Bool.not_eq_true] at h2
      simp [h2]

theorem foldl_mergeStep_frame (id eff src : String) (pairs : List (String × String)) :
    ∀ st : MergeAcc,
      (pairs.foldl (mergeStep id eff src) st).s.docs = st.s.docs ∧
      (pairs.foldl (mergeStep id eff src) st).s.idPrefixFilter = st.s.idPrefixFilter := by
  induction pairs with
  | nil => intro st; exact ⟨rfl, rfl⟩
  | cons p rest ih =>
      intro st
      rw [List.foldl_cons]
      obtain ⟨hd, hf⟩ := ih (mergeStep id eff src st p)
      obtain ⟨hd2, hf2⟩ := mergeStep_frame id eff src st p
      exact ⟨hd.trans hd2, hf.trans hf2⟩

theorem mergeOne_pass (pm : String → String → Bool) (s : Store) (e c v d f : String)
    (hf : s.idPrefixFilter = []) (hv : isSentinel v = false)
    (hcond : (getColumnEffectiveDate s e c == "" || strGt d (getColumnEffectiveDate s e c)) = true) :
    UpdateAssetFromCSVWithDate pm s e [c] [v] d f =
      (true,
       SaveAsset
         { updateColumnEffectiveDate s e c d f with
             columns := addColumnIfNotExists (updateColumnEffectiveDate s e c d f).columns c }
         e (insertA (LoadOrCreateAsset s e) c v)) := by
  unfold UpdateAssetFromCSVWithDate
  have hi : ShouldIncludeID pm s.idPrefixFilter e = true := by
    unfold ShouldIncludeID
    simp [hf]
  rw [hi]
  unfold mergeLoadPhase
  simp only [List.zip_cons_cons, List.zip_nil_right, List.foldl_cons, List.foldl_nil]
  unfold mergeStep
  simp only [hv, Bool.false_eq_true, if_false, hcond, if_true]
  simp

theorem mergeOne_fail (pm : String → String → Bool) (s : Store) (e c v d f : String)
    (hcond : isSentinel v = true ∨
      (getColumnEffectiveDate s e c == "" || strGt d (getColumnEffectiveDate s e c)) = false) :
    UpdateAssetFromCSVWithDate pm s e [c] [v] d f = (false, s) := by
  unfold UpdateAssetFromCSVWithDate
  cases hi : ShouldIncludeID pm s.idPrefixFilter e with
  | false => simp [hi]
  | true =>
      rw [if_neg (fun hcontra => Bool.noConfusion hcontra)]
      unfold mergeLoadPhase
      simp only [List.zip_cons_cons, List.zip_nil_right, List.foldl_cons, List.foldl_nil]
      unfold mergeStep
      rcases hcond with h | h
      · simp [h]
      · rcases Bool.eq_false_or_eq_true (isSentinel v) with hs | hs
        · simp [hs]
        · rw [Bool.or_eq_false_iff] at h
          obtain ⟨h2a, h2b⟩ := h
          rw [beq_eq_false_iff_ne] at h2a
          simp [hs, h2a, h2b]

/-- C1.  Monotonic merge per (entity, column): for values passing the
sentinel filter and an as-yet-unseen column, the first merge always accepts
the value and records its date; the second merge replaces value and
provenance date exactly when its effective date is strictly greater (Go
string order); on a tie or older date both stay those of the first merge. -/
theorem merge_monotonic_per_column (pm : String → String → Bool) (s : Store)
    (e c v1 v2 d1 d2 f1 f2 : String)
    (hf : s.idPrefixFilter = [])
    (hv1 : isSentinel v1 = false) (hv2 : isSentinel v2 = false)
    (hfirst : getColumnEffectiveDate s e c = "")
    (hd1 : d1 ≠ "") :
    (getColumn ((UpdateAssetFromCSVWithDate pm s e [c] [v1] d1 f1).2) e c = some v1 ∧
     getColumnEffectiveDate ((UpdateAssetFromCSVWithDate pm s e [c] [v1] d1 f1).2) e c = d1) ∧
    (strGt d2 d1 = true →
      getColumn ((UpdateAssetFromCSVWithDate pm
        ((UpdateAssetFromCSVWithDate pm s e [c] [v1] d1 f1).2) e [c] [v2] d2 f2).2) e c = some v2 ∧
      getColumnEffectiveDate ((UpdateAssetFromCSVWithDate pm
        ((UpdateAssetFromCSVWithDate pm s e [c] [v1] d1 f1).2) e [c] [v2] d2 f2).2) e c = d2) ∧
    (strGt d2 d1 = false →
      getColumn ((UpdateAssetFromCSVWithDate pm
        ((UpdateAssetFromCSVWithDate pm s e [c] [v1] d1 f1).2) e [c] [v2] d2 f2).2) e c = some v1 ∧
      getColumnEffectiveDate ((UpdateAssetFromCSVWithDate pm
        ((UpdateAssetFromCSVWithDate pm s e [c] [v1] d1 f1).2) e [c] [v2] d2 f2).2) e c = d1) := by
  have hcond1 : (getColumnEffectiveDate s e c == "" || strGt d1 (getColumnEffectiveDate s e c)) = true := by
    rw [hfirst]; simp
  have hs1 := mergeOne_pass pm s e c v1 d1 f1 hf hv1 hcond1
  rw [hs1]
  set upd1 : Store := updateColumnEffectiveDate s e c d1 f1 with hupd1
  set A1 : Doc := insertA (LoadOrCreateAsset s e) c v1 with hA1
  set S1 : Store := SaveAsset { upd1 with columns := addColumnIfNotExists upd1.columns c } e A1 with hS1
  have p1a : getColumn S1 e c = some v1 := by
    unfold getColumn GetAsset
    rw [hS1]
    unfold SaveAsset
    simp [lookupA_insertA_self]
    rw [hA1]
    exact lookupA_insertA_self _ c v1
  have p1b : getColumnEffectiveDate S1 e c = d1 := by
    have hmetas : getColumnEffectiveDate S1 e c = getColumnEffectiveDate upd1 e c := rfl
    rw [hmetas, hupd1]
    exact getEff_upd_fresh s e c d1 f1 hfirst hd1
  have p1f : S1.idPrefixFilter = [] := by
    have : S1.idPrefixFilter = s.idPrefixFilter := rfl
    rw [this, hf]
  refine ⟨⟨p1a, p1b⟩, ?_, ?_⟩
  · intro hgt
    have hcond2 : (getColumnEffectiveDate S1 e c == "" || strGt d2 (getColumnEffectiveDate S1 e c)) = true := by
      rw [p1b, hgt]; simp
    have hs2 := mergeOne_pass pm S1 e c v2 d2 f2 p1f hv2 hcond2
    rw [hs2]
    constructor
    · unfold getColumn GetAsset SaveAsset
      simp [lookupA_insertA_self]
    · have hmetas2 : getColumnEffectiveDate
          (SaveAsset { updateColumnEffectiveDate S1 e c d2 f2 with
            columns := addColumnIfNotExists (updateColumnEffectiveDate S1 e c d2 f2).columns c }
            e (insertA (LoadOrCreateAsset S1 e) c v2)) e c =
          getColumnEffectiveDate (updateColumnEffectiveDate S1 e c d2 f2) e c := rfl
      rw [hmetas2, getEff_upd_exists S1 e c d2 f2 (by rw [p1b]; exact hd1), p1b, hgt]
      simp
  · intro hgt
    have hcond2 : (getColumnEffectiveDate S1 e c == "" || strGt d2 (getColumnEffectiveDate S1 e c)) = false := by
      rw [p1b, hgt, Bool.or_eq_false_iff]
      exact ⟨beq_eq_false_iff_ne.mpr hd1, rfl⟩
    have hs2 := mergeOne_fail pm S1 e c v2 d2 f2 (Or.inr hcond2)
    rw [hs2]
    exact ⟨p1a, p1b⟩

theorem lookupA_loadOrCreate (s : Store) (id c : String) (h : c ≠ "ID_BB_GLOBAL") :
    lookupA (LoadOrCreateAsset s id) c = getColumn s id c := by
  unfold LoadOrCreateAsset getColumn GetAsset
  rw [lookupA_insertA_ne _ _ _ _ h]
  cases hd : lookupA s.docs id with
  | none => simp [lookupA]
  | some a => simp

theorem foldl_mergeStep_sentinel_col (id eff src c : String) :
    ∀ (pairs : List (String × String)) (st : MergeAcc),
      (∀ p ∈ pairs, p.1 = c → isSentinel p.2 = true) →
      lookupA (pairs.foldl (mergeStep id eff src) st).asset c = lookupA st.asset c ∧
      getColumnEffectiveDate (pairs.foldl (mergeStep id eff src) st).s id c =
        getColumnEffectiveDate st.s id c := by
  intro pairs
  induction pairs with
  | nil => intro st _; exact ⟨rfl, rfl⟩
  | cons p rest ih =>
      intro st hc
      rw [List.foldl_cons]
      have hstep : lookupA (mergeStep id eff src st p).asset c = lookupA st.asset c ∧
          getColumnEffectiveDate (mergeStep id eff src st p).s id c =
            getColumnEffectiveDate st.s id c := by
        unfold mergeStep
        by_cases h1 : isSentinel p.2 = true
        · simp [h1]
        · simp only [Bool.not_eq_true] at h1
          have hpc : p.1 ≠ c := fun hh => by
            have hcontra := hc p (List.mem_cons_self p rest) hh
            rw [h1] at hcontra
            exact Bool.noConfusion hcontra
          simp only [h1, Bool.false_eq_true, if_false]
          by_cases h2 : (getColumnEffectiveDate st.s id p.1 == "" ||
              strGt eff (getColumnEffectiveDate st.s id p.1)) = true
          · simp only [h2, if_true]
            constructor
            · exact lookupA_insertA_ne st.asset p.1 c p.2 (Ne.symm hpc)
            · have hcol : getColumnEffectiveDate
                  { updateColumnEffectiveDate st.s id p.1 eff src with
                      columns := addColumnIfNotExists
                        (updateColumnEffectiveDate st.s id p.1 eff src).columns p.1 } id c =
                  getColumnEffectiveDate (updateColumnEffectiveDate st.s id p.1 eff src) id c := rfl
              rw [hcol]
              exact getEff_upd_ne st.s id p.1 c eff src (Ne.symm hpc)
          · simp only [Bool.not_eq_true] at h2
            simp [h2]
      obtain ⟨ha, hb⟩ := ih (mergeStep id eff src st p)
        (fun q hq => hc q (List.mem_cons_of_mem p hq))
      exact ⟨ha.trans hstep.1, hb.trans hstep.2⟩

theorem foldl_mergeStep_all_fail (id eff src : String) (s : Store) :
    ∀ (pairs : List (String × String)),
      (∀ p ∈ pairs, isSentinel p.2 = true ∨
        (getColumnEffectiveDate s id p.1 ≠ "" ∧
         strGt eff (getColumnEffectiveDate s id p.1) = false)) →
      ∀ asset : Doc,
        pairs.foldl (mergeStep id eff src) ⟨s, asset, false⟩ = ⟨s, asset, false⟩ := by
  intro pairs
  induction pairs with
  | nil => intro _ asset; rfl
  | cons p rest ih =>
      intro h asset
      rw [List.foldl_cons]
      have hstep : mergeStep id eff src ⟨s, asset, false⟩ p = ⟨s, asset, false⟩ := by
        unfold mergeStep
        rcases h p (List.mem_cons_self p rest) with hs | ⟨hne, hfalse⟩
        · simp [hs]
        · cases hsv : isSentinel p.2 with
          | true => simp
          | false =>
              simp only [Bool.false_eq_true, if_false]
              have hb : (getColumnEffectiveDate s id p.1 == "") = false :=
                beq_eq_false_iff_ne.mpr hne
              simp [hb, hfalse]
      rw [hstep]
      exact ih (fun q hq => h q (List.mem_cons_of_mem p hq)) asset

/-- C10 helper: the full merge with no passing column returns false and
leaves the whole store untouched. -/
theorem merge_all_fail_store (pm : String → String → Bool) (s : Store)
    (id : String) (header record : List String) (eff src : String)
    (h : ∀ p ∈ header.zip record, isSentinel p.2 = true ∨
      (getColumnEffectiveDate s id p.1 ≠ "" ∧
       strGt eff (getColumnEffectiveDate s id p.1) = false)) :
    UpdateAssetFromCSVWithDate pm s id header record eff src = (false, s) := by
  unfold UpdateAssetFromCSVWithDate
  cases hi : ShouldIncludeID pm s.idPrefixFilter id with
  | false => simp
  | true =>
      rw [if_neg (fun hcontra => Bool.noConfusion hcontra)]
      unfold mergeLoadPhase
      rw [foldl_mergeStep_all_fail id eff src s (header.zip record) h (LoadOrCreateAsset s id)]
      simp


/-- C7.  Ingestion row handling: a data row whose identifier field is empty
is skipped entirely (the store is unchanged, no merge happens), and a merge
never lets a column all of whose supplied values are sentinels create or
overwrite that column stored value or its provenance date. -/
theorem ingest_skips_empty_id_and_sentinels (pm : String → String → Bool)
    (s : Store) (header record : List String) (idIndex : Nat)
    (eff src id c : String) :
    (idIndex < record.length → record.getD idIndex "" = "" →
      processCSVRow pm s header idIndex record eff src = s) ∧
    ((∀ v, (c, v) ∈ header.zip record → isSentinel v = true) → c ≠ "ID_BB_GLOBAL" →
      getColumn ((UpdateAssetFromCSVWithDate pm s id header record eff src).2) id c =
        getColumn s id c ∧
      getColumnEffectiveDate ((UpdateAssetFromCSVWithDate pm s id header record eff src).2) id c =
        getColumnEffectiveDate s id c) := by
  constructor
  · intro hlen hid
    unfold processCSVRow
    rw [if_pos hlen, hid]
    simp
  · intro hsent hcne
    unfold UpdateAssetFromCSVWithDate
    cases hi : ShouldIncludeID pm s.idPrefixFilter id with
    | false => exact ⟨rfl, rfl⟩
    | true =>
        rw [if_neg (fun hcontra => Bool.noConfusion hcontra)]
        unfold mergeLoadPhase
        have hc : ∀ p ∈ header.zip record, p.1 = c → isSentinel p.2 = true := by
          intro p hp h1
          exact hsent p.2 (by rw [← h1]; exact hp)
        obtain ⟨hA, hM⟩ := foldl_mergeStep_sentinel_col id eff src c (header.zip record)
          { s := s, asset := LoadOrCreateAsset s id, updated := false } hc
        obtain ⟨hD, _⟩ := foldl_mergeStep_frame id eff src (header.zip record)
          { s := s, asset := LoadOrCreateAsset s id, updated := false }
        set acc := (header.zip record).foldl (mergeStep id eff src)
          { s := s, asset := LoadOrCreateAsset s id, updated := false } with hacc
        cases hu : acc.updated with
        | true =>
            simp only [hu, if_true]
            constructor
            · unfold getColumn GetAsset SaveAsset
              simp only [lookupA_insertA_self]
              show lookupA acc.asset c = getColumn s id c
              rw [hA]
              exact lookupA_loadOrCreate s id c hcne
            · have hsave : getColumnEffectiveDate (SaveAsset acc.s id acc.asset) id c =
                  getColumnEffectiveDate acc.s id c := rfl
              rw [hsave]
              exact hM
        | false =>
            simp only [hu, Bool.false_eq_true, if_false]
            constructor
            · unfold getColumn GetAsset
              rw [hD]
            · exact hM


theorem mem_addColumnIfNotExists (cols : List String) (c x : String) (h : x ∈ cols) :
    x ∈ addColumnIfNotExists cols c := by
  unfold addColumnIfNotExists
  by_cases h1 : c ∈ cols
  · rw [if_pos h1]; exact h
  · rw [if_neg h1]; exact List.mem_append_left _ h

theorem nodup_addColumnIfNotExists (cols : List String) (c : String) (h : cols.Nodup) :
    (addColumnIfNotExists cols c).Nodup := by
  unfold addColumnIfNotExists
  by_cases h1 : c ∈ cols
  · rw [if_pos h1]; exact h
  · rw [if_neg h1]
    rw [List.nodup_append]
    refine ⟨h, List.nodup_singleton c, ?_⟩
    intro x hx hc
    rw [List.mem_singleton] at hc
    subst hc
    exact absurd hx h1

theorem mergeStep_columns (id eff src : String) (st : MergeAcc) (p : String × String) :
    (∀ x ∈ st.s.columns, x ∈ (mergeStep id eff src st p).s.columns) ∧
    (st.s.columns.Nodup → (mergeStep id eff src st p).s.columns.Nodup) := by
  unfold mergeStep
  by_cases h1 : isSentinel p.2 = true
  · simp [h1]
  · simp only [Bool.not_eq_true] at h1
    simp only [h1, Bool.false_eq_true, if_false]
    by_cases h2 : (getColumnEffectiveDate st.s id p.1 == "" ||
        strGt eff (getColumnEffectiveDate st.s id p.1)) = true
    · simp only [h2, if_true]
      have hcols : (updateColumnEffectiveDate st.s id p.1 eff src).columns = st.s.columns := rfl
      constructor
      · intro x hx
        show x ∈ addColumnIfNotExists (updateColumnEffectiveDate st.s id p.1 eff src).columns p.1
        rw [hcols]
        exact mem_addColumnIfNotExists st.s.columns p.1 x hx
      · intro hn
        show (addColumnIfNotExists (updateColumnEffectiveDate st.s id p.1 eff src).columns p.1).Nodup
        rw [hcols]
        exact nodup_addColumnIfNotExists st.s.columns p.1 hn
    · simp only [Bool.not_eq_true] at h2
      simp [h2]

theorem foldl_mergeStep_columns (id eff src : String) (pairs : List (String × String)) :
    ∀ st : MergeAcc,
      (∀ x ∈ st.s.columns, x ∈ (pairs.foldl (mergeStep id eff src) st).s.columns) ∧
      (st.s.columns.Nodup → (pairs.foldl (mergeStep id eff src) st).s.columns.Nodup) := by
  induction pairs with
  | nil => intro st; exact ⟨fun x hx => hx, fun hn => hn⟩
  | cons p rest ih =>
      intro st
      rw [List.foldl_cons]
      obtain ⟨hsub, hnd⟩ := mergeStep_columns id eff src st p
      obtain ⟨hsub2, hnd2⟩ := ih (mergeStep id eff src st p)
      exact ⟨fun x hx => hsub2 x (hsub x hx), fun hn => hnd2 (hnd hn)⟩

theorem update_columns_monotone (pm : String → String → Bool) (s : Store)
    (id : String) (header record : List String) (eff src : String) :
    (∀ x ∈ s.columns, x ∈ ((UpdateAssetFromCSVWithDate pm s id header record eff src).2).columns) ∧
    (s.columns.Nodup → ((UpdateAssetFromCSVWithDate pm s id header record eff src).2).columns.Nodup) := by
  unfold UpdateAssetFromCSVWithDate
  cases hi : ShouldIncludeID pm s.idPrefixFilter id with
  | false => exact ⟨fun x hx => hx, fun hn => hn⟩
  | true =>
      rw [if_neg (fun hcontra => Bool.noConfusion hcontra)]
      unfold mergeLoadPhase
      obtain ⟨hsub, hnd⟩ := foldl_mergeStep_columns id eff src (header.zip record)
        { s := s, asset := LoadOrCreateAsset s id, updated := false }
      set acc := (header.zip record).foldl (mergeStep id eff src)
        { s := s, asset := LoadOrCreateAsset s id, updated := false } with hacc
      cases hu : acc.updated with
      | true =>
          simp only [hu, if_true]
          have hsave : (SaveAsset acc.s id acc.asset).columns = acc.s.columns := rfl
          rw [hsave]
          exact ⟨hsub, hnd⟩
      | false =>
          simp only [hu, Bool.false_eq_true, if_false]
          exact ⟨hsub, hnd⟩

theorem processCSVRow_columns (pm : String → String → Bool) (s : Store)
    (header : List String) (idIndex : Nat) (record : List String) (eff src : String) :
    (∀ x ∈ s.columns, x ∈ (processCSVRow pm s header idIndex record eff src).columns) ∧
    (s.columns.Nodup → (processCSVRow pm s header idIndex record eff src).columns.Nodup) := by
  unfold processCSVRow
  by_cases h1 : idIndex < record.length
  · simp only [h1, if_true]
    by_cases h2 : record.getD idIndex "" = ""
    · simp only [h2, if_true]
      exact ⟨fun x hx => hx, fun hn => hn⟩
    · simp only [h2, if_false]
      exact update_columns_monotone pm s (record.getD idIndex "") header record eff src
  · simp only [h1, if_false]
    exact ⟨fun x hx => hx, fun hn => hn⟩

theorem foldl_addColumn_columns (header : List String) :
    ∀ cols : List String,
      (∀ x ∈ cols, x ∈ header.foldl addColumnIfNotExists cols) ∧
      (cols.Nodup → (header.foldl addColumnIfNotExists cols).Nodup) := by
  induction header with
  | nil => intro cols; exact ⟨fun x hx => hx, fun hn => hn⟩
  | cons c rest ih =>
      intro cols
      rw [List.foldl_cons]
      obtain ⟨hsub2, hnd2⟩ := ih (addColumnIfNotExists cols c)
      exact ⟨fun x hx => hsub2 x (mem_addColumnIfNotExists cols c x hx),
             fun hn => hnd2 (nodup_addColumnIfNotExists cols c hn)⟩

theorem loadCSVFile_columns (pm : String → String → Bool) (today : String) (s : Store)
    (filePath : String) (header : List String) (records : List (List String)) :
    (∀ x ∈ s.columns, x ∈ (LoadCSVFile pm today s filePath header records).columns) ∧
    (s.columns.Nodup → (LoadCSVFile pm today s filePath header records).columns.Nodup) := by
  unfold LoadCSVFile
  cases hix : findIdBBGlobalIndex header with
  | none => exact ⟨fun x hx => hx, fun hn => hn⟩
  | some idIndex =>
      obtain ⟨hsub1, hnd1⟩ := foldl_addColumn_columns header s.columns
      have hrec : ∀ (rs : List (List String)) (st : Store),
          (∀ x ∈ st.columns, x ∈ (rs.foldl (fun st2 r => processCSVRow pm st2 header idIndex r
            (getEffectiveDateFromFilename today filePath) filePath) st).columns) ∧
          (st.columns.Nodup → (rs.foldl (fun st2 r => processCSVRow pm st2 header idIndex r
            (getEffectiveDateFromFilename today filePath) filePath) st).columns.Nodup) := by
        intro rs
        induction rs with
        | nil => intro st; exact ⟨fun x hx => hx, fun hn => hn⟩
        | cons r rest ih =>
            intro st
            rw [List.foldl_cons]
            obtain ⟨ha, hb⟩ := processCSVRow_columns pm st header idIndex r
              (getEffectiveDateFromFilename today filePath) filePath
            obtain ⟨ha2, hb2⟩ := ih (processCSVRow pm st header idIndex r
              (getEffectiveDateFromFilename today filePath) filePath)
            exact ⟨fun x hx => ha2 x (ha x hx), fun hn => hb2 (hb hn)⟩
      obtain ⟨hsub2, hnd2⟩ := hrec records { s with columns := header.foldl addColumnIfNotExists s.columns }
      exact ⟨fun x hx => hsub2 x (hsub1 x hx), fun hn => hnd2 (hnd1 hn)⟩

theorem scanExistingAssets_nodup (metas : List (String × AssetMetadata)) :
    (scanExistingAssetsColumns metas).Nodup :=
  List.nodup_dedup _


/-! ## Claim theorems -/

/-- C1 witness. -/
theorem merge_monotonic_per_column_witness :
    getColumn ((UpdateAssetFromCSVWithDate (fun _ _ => true)
      ((UpdateAssetFromCSVWithDate (fun _ _ => true) emptyStore "X" ["PX"] ["1"]
        "20240101" "a.csv").2) "X" ["PX"] ["2"] "20240102" "b.csv").2) "X" "PX" = some "2" ∧
    getColumnEffectiveDate ((UpdateAssetFromCSVWithDate (fun _ _ => true)
      ((UpdateAssetFromCSVWithDate (fun _ _ => true) emptyStore "X" ["PX"] ["1"]
        "20240101" "a.csv").2) "X" ["PX"] ["2"] "20240102" "b.csv").2) "X" "PX" = "20240102" := by
  have h := merge_monotonic_per_column (fun _ _ => true) emptyStore "X" "PX" "1" "2"
    "20240101" "20240102" "a.csv" "b.csv" rfl (by decide) (by decide) rfl (by decide)
  exact h.2.1 (by decide)

/-- C2.  Lost update: two merges of distinct columns into the same id, with
load and save in separately locked steps as in the source, admit an
interleaving (load1, load2, save1, save2) after which the first thread
column is missing from the stored document, contradicting the claim that
all N columns survive any interleaving. -/
theorem merge_split_lock_lost_update :
    mergeThread1.updated = true ∧ mergeThread2.updated = true ∧
    getColumn lostUpdateFinal "X" "B" = some "2" ∧
    getColumn lostUpdateFinal "X" "A" = none := by decide

/-- C3 counterexample.  SaveAsset does not inject the identifier field:
putting the empty document and getting it back yields exactly the empty
document, without the ID_BB_GLOBAL binding the claim promises. -/
theorem put_get_no_id_injection_cex :
    GetAsset (SaveAsset emptyStore "AAPL" []) "AAPL" = some [] ∧
    getColumn (SaveAsset emptyStore "AAPL" []) "AAPL" "ID_BB_GLOBAL" = none := by decide

/-- C3 amended.  SaveAsset then GetAsset yields exactly the document that
was put; the identifier field is injected by LoadOrCreateAsset, not by
SaveAsset. -/
theorem put_get_roundtrip_exact (s : Store) (id : String) (doc : Doc) :
    GetAsset (SaveAsset s id doc) id = some doc ∧
    LoadOrCreateAsset (SaveAsset s id doc) id = insertA doc "ID_BB_GLOBAL" id := by
  constructor
  · unfold GetAsset SaveAsset
    exact lookupA_insertA_self s.docs id doc
  · unfold LoadOrCreateAsset SaveAsset
    simp [lookupA_insertA_self]

/-- C4.  Case-insensitive column resolution is absent from the engine:
ParseSQL upper-cases the whole query, executeSQLQueryScan then matches the
upper-cased predicate column against document keys case-sensitively, so the
spec Scenario C query returns no rows even though the document holds the
column under a case-insensitive match. -/
theorem query_case_fold_missing_in_engine :
    ParseSQL "SELECT Company FROM BB_ASSETS WHERE Revenue > 300" =
      .ok { SelectColumns := ["COMPANY"], FromTable := "BB_ASSETS",
            WhereColumn := "REVENUE", WhereOperator := ">",
            WhereValue := "300", HasWhere := true } ∧
    lookupA aaplDoc "REVENUE" = none ∧
    lookupCaseInsensitive aaplDoc "REVENUE" = some "365.8" ∧
    ExecuteSQLQuery scenarioCStore "SELECT Company FROM BB_ASSETS WHERE Revenue > 300" =
      .ok [] := by decide

/-- C5.  The operator alternation misparses compound operators and the
upper-casing mangles literals: a >= predicate parses as operator > with
literal "= 100", and a quoted literal is returned upper-cased rather than
unchanged. -/
theorem parse_ge_operator_misparsed :
    ParseSQL "SELECT * FROM BB_ASSETS WHERE PX_LAST >= 100" =
      .ok { SelectColumns := ["*"], FromTable := "BB_ASSETS", WhereColumn := "PX_LAST",
            WhereOperator := ">", WhereValue := "= 100", HasWhere := true } ∧
    ParseSQL "SELECT * FROM BB_ASSETS WHERE Name = 'apple'" =
      .ok { SelectColumns := ["*"], FromTable := "BB_ASSETS", WhereColumn := "NAME",
            WhereOperator := "=", WhereValue := "APPLE", HasWhere := true } := by decide

/-- C6.  A successfully parsed query naming any table other than BB_ASSETS
is rejected by execution with an unknown-table error (a semantic error,
past parsing), returning no documents. -/
theorem unknown_table_semantic_error (s : Store) (t : String) (q : SQLQuery)
    (h1 : ParseSQL t = .ok q) (h2 : q.FromTable ≠ "BB_ASSETS") :
    ExecuteSQLQuery s t = .error ("unknown table: " ++ q.FromTable) := by
  unfold ExecuteSQLQuery
  rw [h1]
  exact if_pos h2

/-- C6 witness. -/
theorem unknown_table_semantic_error_witness :
    ExecuteSQLQuery emptyStore "SELECT * FROM OTHER_TABLE" =
      .error ("unknown table: " ++ "OTHER_TABLE") :=
  unknown_table_semantic_error emptyStore "SELECT * FROM OTHER_TABLE"
    { SelectColumns := ["*"], FromTable := "OTHER_TABLE", HasWhere := false }
    (by decide) (by decide)

/-- C7 witness. -/
theorem ingest_skips_empty_id_and_sentinels_witness :
    processCSVRow (fun _ _ => true) emptyStore ["ID_BB_GLOBAL", "A"] 0 ["", "5"]
      "20240101" "f.csv" = emptyStore ∧
    getColumn ((UpdateAssetFromCSVWithDate (fun _ _ => true) emptyStore "X" ["A", "B"]
      ["N.A.", "7"] "20240101" "f.csv").2) "X" "A" = none := by
  constructor
  · exact (ingest_skips_empty_id_and_sentinels (fun _ _ => true) emptyStore
      ["ID_BB_GLOBAL", "A"] ["", "5"] 0 "20240101" "f.csv" "X" "A").1 (by decide) (by decide)
  · have h2 := (ingest_skips_empty_id_and_sentinels (fun _ _ => true) emptyStore
      ["A", "B"] ["N.A.", "7"] 0 "20240101" "f.csv" "X" "A").2
      (by
        intro v hv
        have hv2 : ("A", v) = ("A", "N.A.") ∨ ("A", v) = ("B", "7") := by simpa using hv
        rcases hv2 with h | h
        · rw [(Prod.mk.injEq _ _ _ _).mp h |>.2]
          decide
        · exact absurd ((Prod.mk.injEq _ _ _ _).mp h).1 (by decide))
      (by decide)
    rw [h2.1]
    rfl

/-- C8 counterexample.  A file name whose first 8-digit token is not a
calendar date but whose later token is one: the code falls back to today
instead of returning the valid token the name contains. -/
theorem effective_date_later_valid_token_cex :
    (tokens8 "x_99999999_20240101.csv").any validDate = true ∧
    getEffectiveDateFromFilename "19990909" "x_99999999_20240101.csv" = "19990909" ∧
    ¬ ("19990909" ∈ tokens8 "x_99999999_20240101.csv") := by decide

/-- C8 amended.  Only the leftmost 8-digit token is consulted: when it is a
valid calendar date it is returned (and it is one of the 8-digit tokens of
the name); when it is invalid, or when no 8-digit token exists, the current
date is returned. -/
theorem effective_date_first_token_rule (today name t : String)
    (h : findFirst8Digits name = some t) :
    (validDate t = true →
      getEffectiveDateFromFilename today name = t ∧ t ∈ tokens8 name) ∧
    (validDate t = false → getEffectiveDateFromFilename today name = today) ∧
    (∀ n : String, findFirst8Digits n = none →
      getEffectiveDateFromFilename today n = today) := by
  have hmem : t ∈ tokens8 name := by
    unfold findFirst8Digits at h
    cases htok : tokens8 name with
    | nil => rw [htok] at h; exact Option.noConfusion h
    | cons a l =>
        rw [htok] at h
        rw [show t = a from (Option.some_inj.mp h).symm]
        exact List.mem_cons_self a l
  refine ⟨?_, ?_, ?_⟩
  · intro hv
    unfold getEffectiveDateFromFilename
    rw [h]
    exact ⟨by simp [hv], hmem⟩
  · intro hv
    unfold getEffectiveDateFromFilename
    rw [h]
    simp [hv]
  · intro n hn
    unfold getEffectiveDateFromFilename
    rw [hn]

/-- C8 witness. -/
theorem effective_date_first_token_rule_witness :
    getEffectiveDateFromFilename "19990909" "data_20240131.csv" = "20240131" ∧
    "20240131" ∈ tokens8 "data_20240131.csv" :=
  (effective_date_first_token_rule "19990909" "data_20240131.csv" "20240131"
    (by decide)).1 (by decide)

/-- C9.  The column catalog only grows and stays duplicate-free: across a
merge, a whole-file ingestion, and the startup rescan of persisted
metadata, the catalog after is a superset of the catalog before, and
remains without repeated names. -/
theorem column_catalog_monotone_nodup (pm : String → String → Bool) (s : Store)
    (id : String) (header record : List String) (eff src today filePath : String)
    (records : List (List String)) (metas : List (String × AssetMetadata))
    (h : s.columns.Nodup) :
    (∀ x ∈ s.columns,
      x ∈ ((UpdateAssetFromCSVWithDate pm s id header record eff src).2).columns) ∧
    ((UpdateAssetFromCSVWithDate pm s id header record eff src).2).columns.Nodup ∧
    (∀ x ∈ s.columns, x ∈ (LoadCSVFile pm today s filePath header records).columns) ∧
    (LoadCSVFile pm today s filePath header records).columns.Nodup ∧
    (scanExistingAssetsColumns metas).Nodup := by
  obtain ⟨h1, h2⟩ := update_columns_monotone pm s id header record eff src
  obtain ⟨h3, h4⟩ := loadCSVFile_columns pm today s filePath header records
  exact ⟨h1, h2 h, h3, h4 h, scanExistingAssets_nodup metas⟩

/-- C9 witness. -/
theorem column_catalog_monotone_nodup_witness :
    ((UpdateAssetFromCSVWithDate (fun _ _ => true) (Store.mk [] [] ["A"] []) "X"
      ["ID_BB_GLOBAL", "C"] ["X", "5"] "20240101" "f.csv").2).columns.Nodup ∧
    (LoadCSVFile (fun _ _ => true) "19990909" (Store.mk [] [] ["A"] [])
      "f_20240131.csv" ["ID_BB_GLOBAL", "C"] [["X", "5"]]).columns.Nodup := by
  have h := column_catalog_monotone_nodup (fun _ _ => true) (Store.mk [] [] ["A"] [])
    "X" ["ID_BB_GLOBAL", "C"] ["X", "5"] "20240101" "f.csv" "19990909" "f_20240131.csv"
    [["X", "5"]] [] (by decide)
  exact ⟨h.2.1, h.2.2.2.1⟩

/-- C10.  A merge in which every supplied value is a sentinel or carries an
effective date not strictly newer than the recorded one returns
changed = false and leaves the persisted document files untouched. -/
theorem merge_no_update_no_save (pm : String → String → Bool) (s : Store)
    (id : String) (header record : List String) (eff src : String)
    (h : ∀ p ∈ header.zip record, isSentinel p.2 = true ∨
      (getColumnEffectiveDate s id p.1 ≠ "" ∧
       strGt eff (getColumnEffectiveDate s id p.1) = false)) :
    (UpdateAssetFromCSVWithDate pm s id header record eff src).1 = false ∧
    ((UpdateAssetFromCSVWithDate pm s id header record eff src).2).docs = s.docs ∧
    GetAsset ((UpdateAssetFromCSVWithDate pm s id header record eff src).2) id =
      GetAsset s id := by
  rw [merge_all_fail_store pm s id header record eff src h]
  exact ⟨rfl, rfl, rfl⟩

/-- C10 witness. -/
theorem merge_no_update_no_save_witness :
    (UpdateAssetFromCSVWithDate (fun _ _ => true) frameStore "X" ["C", "D"]
      ["new", ""] "20240101" "f1.csv").1 = false ∧
    ((UpdateAssetFromCSVWithDate (fun _ _ => true) frameStore "X" ["C", "D"]
      ["new", ""] "20240101" "f1.csv").2).docs = frameStore.docs ∧
    GetAsset ((UpdateAssetFromCSVWithDate (fun _ _ => true) frameStore "X" ["C", "D"]
      ["new", ""] "20240101" "f1.csv").2) "X" = GetAsset frameStore "X" :=
  merge_no_update_no_save (fun _ _ => true) frameStore "X" ["C", "D"] ["new", ""]
    "20240101" "f1.csv" (by decide)

end Datamatrix
